import Mathlib

/-!
Verification of the SentryOS desktop shell: a shallow embedding of the
window-manager state machine (`src/components/desktop/WindowManager.tsx`)
and of the agent proxy endpoints (`src/app/api/chat/route.ts` and the
customer-research route), together with proofs of the specified
invariants (focus uniqueness, z-order monotonicity, no-op behaviour on
unknown ids, SSE frame grammar).
-/

namespace SentryOS

/-- Modelled from the spec: the `WindowState` record is imported from
`./types`, a file absent from the sources; its fields follow §3 of the
spec (id, title, icon, opaque content, position, size with min floors,
`zIndex`, and the three boolean flags). The opaque `content` payload is
carried as an uninterpreted string. -/
structure WindowState where
  id : String
  title : String
  icon : String
  content : String
  x : Int
  y : Int
  width : Int
  height : Int
  minWidth : Int
  minHeight : Int
  zIndex : Int
  isMinimized : Bool
  isMaximized : Bool
  isFocused : Bool
  deriving Repr, DecidableEq

/-- Argument of `openWindow`: `Omit<WindowState, 'zIndex' | 'isFocused'>`,
i.e. every `WindowState` field except `zIndex` and `isFocused`. -/
structure OpenSpec where
  id : String
  title : String
  icon : String
  content : String
  x : Int
  y : Int
  width : Int
  height : Int
  minWidth : Int
  minHeight : Int
  isMinimized : Bool
  isMaximized : Bool
  deriving Repr, DecidableEq

/-- Manager state held by `WindowManagerProvider`: the `windows` array and
the `topZIndex` counter. -/
structure ManagerState where
  windows : List WindowState
  topZIndex : Int
  deriving Repr, DecidableEq

/-- Initial provider state: `useState<WindowState[]>([])` and
`useState(100)`. -/
def initialState : ManagerState :=
  { windows := [], topZIndex := 100 }

/-- Translation of `openWindow` (WindowManager.tsx lines 34-92): bump
`topZIndex`; if a window with the id exists and is minimized, restore and
focus it at the new z; if it exists unminimized, focus it at the new z;
otherwise unfocus everything and append a fresh focused window. -/
def openWindow (spec : OpenSpec) (s : ManagerState) : ManagerState :=
  let newZ := s.topZIndex + 1
  match s.windows.find? (fun w => w.id == spec.id) with
  | some existing =>
    if existing.isMinimized then
      { windows := s.windows.map (fun w =>
          if w.id == spec.id then
            { w with isMinimized := false, isFocused := true, zIndex := newZ }
          else
            { w with isFocused := false }),
        topZIndex := newZ }
    else
      { windows := s.windows.map (fun w =>
          if w.id == spec.id then
            { w with isFocused := true, zIndex := newZ }
          else
            { w with isFocused := false }),
        topZIndex := newZ }
  | none =>
    { windows := s.windows.map (fun w => { w with isFocused := false }) ++
        [{ id := spec.id, title := spec.title, icon := spec.icon,
           content := spec.content, x := spec.x, y := spec.y,
           width := spec.width, height := spec.height,
           minWidth := spec.minWidth, minHeight := spec.minHeight,
           isMinimized := spec.isMinimized, isMaximized := spec.isMaximized,
           zIndex := newZ, isFocused := true }],
      topZIndex := newZ }

/-- Translation of `closeWindow` (lines 94-113): filter the id out. -/
def closeWindow (id : String) (s : ManagerState) : ManagerState :=
  { s with windows := s.windows.filter (fun w => w.id != id) }

/-- Translation of `minimizeWindow` (lines 115-133): on the matching id set
`isMinimized := true, isFocused := false`; other windows unchanged. -/
def minimizeWindow (id : String) (s : ManagerState) : ManagerState :=
  { s with windows := s.windows.map (fun w =>
      if w.id == id then { w with isMinimized := true, isFocused := false } else w) }

/-- Translation of `maximizeWindow` (lines 135-155): toggle `isMaximized`
on the matching id; other windows unchanged. -/
def maximizeWindow (id : String) (s : ManagerState) : ManagerState :=
  { s with windows := s.windows.map (fun w =>
      if w.id == id then { w with isMaximized := !w.isMaximized } else w) }

/-- Translation of `restoreWindow` (lines 157-167): bump `topZIndex`; the
matching id is unminimized, focused and raised to the new z; every other
window is unfocused. -/
def restoreWindow (id : String) (s : ManagerState) : ManagerState :=
  let newZ := s.topZIndex + 1
  { windows := s.windows.map (fun w =>
      if w.id == id then
        { w with isMinimized := false, isFocused := true, zIndex := newZ }
      else
        { w with isFocused := false }),
    topZIndex := newZ }

/-- Translation of `focusWindow` (lines 169-179): bump `topZIndex`; the
matching id is focused and raised to the new z; every other window is
unfocused. -/
def focusWindow (id : String) (s : ManagerState) : ManagerState :=
  let newZ := s.topZIndex + 1
  { windows := s.windows.map (fun w =>
      if w.id == id then
        { w with isFocused := true, zIndex := newZ }
      else
        { w with isFocused := false }),
    topZIndex := newZ }

/-- Translation of `updateWindowPosition` (lines 181-200). -/
def updateWindowPosition (id : String) (x y : Int) (s : ManagerState) : ManagerState :=
  { s with windows := s.windows.map (fun w =>
      if w.id == id then { w with x := x, y := y } else w) }

/-- Translation of `updateWindowSize` (lines 202-231). -/
def updateWindowSize (id : String) (width height : Int) (s : ManagerState) : ManagerState :=
  { s with windows := s.windows.map (fun w =>
      if w.id == id then { w with width := width, height := height } else w) }

/-- One Window Manager operation, as exposed on the context value. -/
inductive Op where
  | openWindow (spec : OpenSpec)
  | closeWindow (id : String)
  | minimizeWindow (id : String)
  | maximizeWindow (id : String)
  | restoreWindow (id : String)
  | focusWindow (id : String)
  | updateWindowPosition (id : String) (x y : Int)
  | updateWindowSize (id : String) (width height : Int)
  deriving Repr, DecidableEq

/-- Apply one operation to a manager state. -/
def applyOp (op : Op) (s : ManagerState) : ManagerState :=
  match op with
  | .openWindow spec => openWindow spec s
  | .closeWindow id => closeWindow id s
  | .minimizeWindow id => minimizeWindow id s
  | .maximizeWindow id => maximizeWindow id s
  | .restoreWindow id => restoreWindow id s
  | .focusWindow id => focusWindow id s
  | .updateWindowPosition id x y => updateWindowPosition id x y s
  | .updateWindowSize id wd ht => updateWindowSize id wd ht s

/-- Apply a finite sequence of operations in call order. -/
def applyOps (ops : List Op) (s : ManagerState) : ManagerState :=
  ops.foldl (fun acc op => applyOp op acc) s

/-- Number of focused windows in a state. -/
def focusedCount (s : ManagerState) : Nat :=
  s.windows.countP (fun w => w.isFocused)

/-- The ids of the tracked windows, in collection order. -/
def windowIds (s : ManagerState) : List String :=
  s.windows.map (fun w => w.id)

/-- Operations that allocate a fresh z index and raise a window:
`openWindow`, `restoreWindow`, `focusWindow`. -/
def bringsToFront : Op → Bool
  | .openWindow _ => true
  | .restoreWindow _ => true
  | .focusWindow _ => true
  | _ => false

/-- The z index a bring-to-front operation run on state `s` hands to its
window: the `newZ = topZIndex + 1` computed at the top of `openWindow`,
`restoreWindow` and `focusWindow`. -/
def assignedZ (s : ManagerState) : Int :=
  s.topZIndex + 1

/-- Caller discipline §9 expects before running one operation on a state:
`focusWindow` is not applied to a currently minimized window, and
`openWindow` specs do not ask for a minimized window. -/
def opAllowed (op : Op) (s : ManagerState) : Bool :=
  match op with
  | .focusWindow id => s.windows.all (fun w => w.id != id || !w.isMinimized)
  | .openWindow spec => !spec.isMinimized
  | _ => true

/-- Caller discipline holding along a whole run of operations. -/
def safeSeq : ManagerState → List Op → Bool
  | _, [] => true
  | s, op :: rest => opAllowed op s && safeSeq (applyOp op s) rest

/-- One entry of the inbound `messages` JSON array (`MessageInput` in
both route files). The `role` is a plain string at runtime. -/
structure MessageInput where
  role : String
  content : String
  deriving Repr, DecidableEq

/-- Runtime shape of the `messages` field of the request body:
`missing` covers an absent or otherwise falsy value (the `!messages`
check), `notArray` a truthy non-array (the `!Array.isArray(messages)`
check), `array` the well-typed case. -/
inductive MessagesField where
  | missing
  | notArray
  | array (msgs : List MessageInput)
  deriving Repr, DecidableEq

/-- The parsed POST body (`await request.json()` destructured to
`messages`). -/
structure RequestBody where
  messages : MessagesField
  deriving Repr, DecidableEq

/-- Delta carried by a `content_block_delta` stream event. -/
inductive Delta where
  | textDelta (text : String)
  | otherDelta
  deriving Repr, DecidableEq

/-- Event carried by a `stream_event` SDK message. -/
inductive SdkEvent where
  | contentBlockDelta (delta : Delta)
  | otherEvent
  deriving Repr, DecidableEq

/-- One block of an assistant message's content array. -/
inductive ContentBlock where
  | toolUse (name : String) (input : String)
  | otherBlock
  deriving Repr, DecidableEq

/-- One message yielded by the agent SDK's `query` iterator, as far as
the streaming loops of the route handlers discriminate them:
`streamEvent` (`type === 'stream_event'`), `assistant`
(`type === 'assistant'`, content `none` when `message?.content` is not
an array), `toolProgress` (`type === 'tool_progress'`), `result` with
its `subtype` string, and anything else. -/
inductive SdkMessage where
  | streamEvent (event : SdkEvent)
  | assistant (content : Option (List ContentBlock))
  | toolProgress (toolName : String) (elapsedSeconds : Int)
  | result (subtype : String)
  | otherMessage
  deriving Repr, DecidableEq

/-- Escape of one character as performed by `JSON.stringify` on the
common cases (backslash, quote, and whitespace control characters). -/
def jsonEscapeChar (c : Char) : String :=
  if c = '\\' then "\\\\"
  else if c = '"' then "\\\""
  else if c = '\n' then "\\n"
  else if c = '\r' then "\\r"
  else if c = '\t' then "\\t"
  else String.singleton c

/-- JSON string literal for `s`, quoted and escaped. -/
def jsonString (s : String) : String :=
  "\"" ++ String.join (s.toList.map jsonEscapeChar) ++ "\""

/-- One server-sent-event frame around a payload. -/
def sseFrame (payload : String) : String :=
  "data: " ++ payload ++ "\n\n"

/-- The literal terminator frame `data: [DONE]\n\n` both handlers enqueue
after the SDK iterator is exhausted. -/
def doneFrame : String :=
  "data: [DONE]\n\n"

/-- Frames enqueued by one iteration of the streaming loop
(route.ts lines 138-281; the customer-research handlers enqueue the
same frames). Text deltas, tool starts (one per `tool_use` block, in
block order), tool progress, and the final `done` or `error` payload
on a `result` message. -/
def emitFrames (m : SdkMessage) : List String :=
  match m with
  | .streamEvent (.contentBlockDelta (.textDelta t)) =>
    [sseFrame ("\x7b\"type\":\"text_delta\",\"text\":" ++ jsonString t ++ "\x7d")]
  | .streamEvent _ => []
  | .assistant none => []
  | .assistant (some blocks) =>
    blocks.filterMap (fun b =>
      match b with
      | .toolUse name _ =>
        some (sseFrame ("\x7b\"type\":\"tool_start\",\"tool\":" ++ jsonString name ++ "\x7d"))
      | .otherBlock => none)
  | .toolProgress tool elapsed =>
    [sseFrame ("\x7b\"type\":\"tool_progress\",\"tool\":" ++ jsonString tool ++
      ",\"elapsed\":" ++ toString elapsed ++ "\x7d")]
  | .result subtype =>
    if subtype == "success" then
      [sseFrame "\x7b\"type\":\"done\"\x7d"]
    else
      [sseFrame ("\x7b\"type\":\"error\",\"message\":" ++
        jsonString "Query did not complete successfully" ++ "\x7d")]
  | .otherMessage => []

/-- The whole success-path SSE body for a run of the SDK iterator: the
per-message frames in order, then the terminator frame. -/
def runStream (msgs : List SdkMessage) : List String :=
  (msgs.map emitFrames).flatten ++ [doneFrame]

/-- Result of the two validation checks at the top of each handler. -/
inductive Validated where
  | badRequest (error : String)
  | ok (lastUserMessage : MessageInput)
  deriving Repr, DecidableEq

/-- Validation performed by both handlers: missing or non-array
`messages` yields the first 400; `messages.filter(role === 'user').pop()`
returning `undefined` yields the second 400. -/
def validateMessages (body : RequestBody) : Validated :=
  match body.messages with
  | .missing => .badRequest "Messages array is required"
  | .notArray => .badRequest "Messages array is required"
  | .array msgs =>
    match (msgs.filter (fun m => m.role == "user")).getLast? with
    | none => .badRequest "No user message found"
    | some last => .ok last

/-- An HTTP response as the handlers build it: a JSON error body with a
status code, or a 200 `text/event-stream` response with its frames. -/
inductive ApiResponse where
  | jsonError (status : Nat) (error : String)
  | eventStream (frames : List String)
  deriving Repr, DecidableEq

/-- The `/api/chat` POST handler over a given run of SDK messages:
validate, then stream. -/
def chatPOST (body : RequestBody) (agentMsgs : List SdkMessage) : ApiResponse :=
  match validateMessages body with
  | .badRequest e => .jsonError 400 e
  | .ok _ => .eventStream (runStream agentMsgs)

/-- The customer-research POST handler (both variants): identical
validation strings and identical frame emission. -/
def customerResearchPOST (body : RequestBody) (agentMsgs : List SdkMessage) : ApiResponse :=
  match validateMessages body with
  | .badRequest e => .jsonError 400 e
  | .ok _ => .eventStream (runStream agentMsgs)

/-- Payload grammar of §6 of the spec: the five allowed frame payload
shapes, stated independently of the handler code. -/
inductive SsePayload where
  | textDelta (text : String)
  | toolStart (tool : String)
  | toolProgress (tool : String) (elapsed : Int)
  | done
  | error (message : String)
  deriving Repr, DecidableEq

/-- Rendering of a §6 payload shape as its JSON text. -/
def renderPayload : SsePayload → String
  | .textDelta t => "\x7b\"type\":\"text_delta\",\"text\":" ++ jsonString t ++ "\x7d"
  | .toolStart tool => "\x7b\"type\":\"tool_start\",\"tool\":" ++ jsonString tool ++ "\x7d"
  | .toolProgress tool elapsed =>
    "\x7b\"type\":\"tool_progress\",\"tool\":" ++ jsonString tool ++
      ",\"elapsed\":" ++ toString elapsed ++ "\x7d"
  | .done => "\x7b\"type\":\"done\"\x7d"
  | .error msg => "\x7b\"type\":\"error\",\"message\":" ++ jsonString msg ++ "\x7d"

/-- A concrete open request used by the witnesses. -/
def demoSpec (i : String) : OpenSpec :=
  { id := i, title := "Notes", icon := "N", content := "c", x := 0, y := 0,
    width := 400, height := 300, minWidth := 100, minHeight := 100,
    isMinimized := false, isMaximized := false }

/-- A concrete focused window used by the witnesses. -/
def demoWindow : WindowState :=
  { id := "a", title := "Notes", icon := "N", content := "c", x := 0, y := 0,
    width := 400, height := 300, minWidth := 100, minHeight := 100,
    zIndex := 101, isMinimized := false, isMaximized := false, isFocused := true }

/-- A concrete manager state holding one focused window. -/
def demoState : ManagerState :=
  { windows := [demoWindow], topZIndex := 101 }

/-- A concrete manager state holding one minimized window. -/
def demoMinState : ManagerState :=
  { windows := [{ demoWindow with isMinimized := true, isFocused := false }],
    topZIndex := 101 }

/-- Operation run violating the caller discipline: focus a minimized
window. -/
def c3ops : List Op :=
  [.openWindow (demoSpec "a"), .minimizeWindow "a", .focusWindow "a"]

/-- Operation run observing the caller discipline: restore instead of
focus. -/
def c3safeOps : List Op :=
  [.openWindow (demoSpec "a"), .minimizeWindow "a", .restoreWindow "a"]

/-- A concrete valid request body. -/
def demoBody : RequestBody :=
  { messages := .array [{ role := "user", content := "hi" }] }

/-- A concrete SDK message run covering every frame kind. -/
def demoMsgs : List SdkMessage :=
  [.streamEvent (.contentBlockDelta (.textDelta "Hello")),
   .assistant (some [.toolUse "WebSearch" "q", .otherBlock]),
   .toolProgress "WebSearch" 2,
   .result "success"]

/-- A list of windows with no id appearing twice has no window with an
absent id. -/
theorem countP_id_eq_zero {l : List WindowState} {a : String}
    (h : a ∉ l.map (fun w => w.id)) :
    l.countP (fun w => w.id == a) = 0 := by
  rw [List.countP_eq_zero]
  intro w hw
  simp only [List.mem_map, not_exists, not_and] at h
  simpa using fun hEq => h w hw hEq

/-- With pairwise-distinct ids, at most one window matches a given id. -/
theorem countP_id_le_one {l : List WindowState} {a : String}
    (h : (l.map (fun w => w.id)).Nodup) :
    l.countP (fun w => w.id == a) ≤ 1 := by
  induction l with
  | nil => simp
  | cons w t ih =>
    simp only [List.map_cons, List.nodup_cons] at h
    rw [List.countP_cons]
    by_cases hw : w.id = a
    · subst hw
      have : t.countP (fun x => x.id == w.id) = 0 := countP_id_eq_zero h.1
      simp [this]
    · have : (w.id == a) = false := by simpa using hw
      simpa [this] using ih h.2

/-- Mapping an id-preserving function over the windows leaves the id list
unchanged. -/
theorem map_ids_of_id_preserved (f : WindowState → WindowState)
    (hf : ∀ w, (f w).id = w.id) (l : List WindowState) :
    (l.map f).map (fun w => w.id) = l.map (fun w => w.id) := by
  rw [List.map_map]
  exact List.map_congr_left (fun w _ => hf w)

/-- Minimizing does not change the id list. -/
theorem windowIds_minimizeWindow (id : String) (s : ManagerState) :
    windowIds (minimizeWindow id s) = windowIds s := by
  simp only [minimizeWindow, windowIds, List.map_map]
  refine List.map_congr_left (fun w _ => ?_)
  by_cases hw : (w.id == id) = true <;> simp [Function.comp, hw]

/-- Maximizing does not change the id list. -/
theorem windowIds_maximizeWindow (id : String) (s : ManagerState) :
    windowIds (maximizeWindow id s) = windowIds s := by
  simp only [maximizeWindow, windowIds, List.map_map]
  refine List.map_congr_left (fun w _ => ?_)
  by_cases hw : (w.id == id) = true <;> simp [Function.comp, hw]

/-- Restoring does not change the id list. -/
theorem windowIds_restoreWindow (id : String) (s : ManagerState) :
    windowIds (restoreWindow id s) = windowIds s := by
  simp only [restoreWindow, windowIds, List.map_map]
  refine List.map_congr_left (fun w _ => ?_)
  by_cases hw : (w.id == id) = true <;> simp [Function.comp, hw]

/-- Focusing does not change the id list. -/
theorem windowIds_focusWindow (id : String) (s : ManagerState) :
    windowIds (focusWindow id s) = windowIds s := by
  simp only [focusWindow, windowIds, List.map_map]
  refine List.map_congr_left (fun w _ => ?_)
  by_cases hw : (w.id == id) = true <;> simp [Function.comp, hw]

/-- Moving does not change the id list. -/
theorem windowIds_updateWindowPosition (id : String) (x y : Int) (s : ManagerState) :
    windowIds (updateWindowPosition id x y s) = windowIds s := by
  simp only [updateWindowPosition, windowIds, List.map_map]
  refine List.map_congr_left (fun w _ => ?_)
  by_cases hw : (w.id == id) = true <;> simp [Function.comp, hw]

/-- Resizing does not change the id list. -/
theorem windowIds_updateWindowSize (id : String) (wd ht : Int) (s : ManagerState) :
    windowIds (updateWindowSize id wd ht s) = windowIds s := by
  simp only [updateWindowSize, windowIds, List.map_map]
  refine List.map_congr_left (fun w _ => ?_)
  by_cases hw : (w.id == id) = true <;> simp [Function.comp, hw]

/-- Opening an id already tracked does not change the id list. -/
theorem windowIds_openWindow_found (spec : OpenSpec) (s : ManagerState)
    (ex : WindowState)
    (hfind : s.windows.find? (fun w => w.id == spec.id) = some ex) :
    windowIds (openWindow spec s) = windowIds s := by
  by_cases hmin : ex.isMinimized = true <;>
  · simp only [openWindow, hfind, hmin, windowIds, if_true, if_false,
      Bool.false_eq_true, List.map_map]
    refine List.map_congr_left (fun w _ => ?_)
    by_cases hw : (w.id == spec.id) = true <;> simp [Function.comp, hw]

/-- Opening a fresh id appends it to the id list. -/
theorem windowIds_openWindow_new (spec : OpenSpec) (s : ManagerState)
    (hfind : s.windows.find? (fun w => w.id == spec.id) = none) :
    windowIds (openWindow spec s) = windowIds s ++ [spec.id] := by
  simp only [openWindow, hfind, windowIds, List.map_append, List.map_map]
  refine congrArg (fun l => l ++ [spec.id]) ?_
  exact List.map_congr_left (fun w _ => rfl)

/-- Every operation preserves distinctness of the window ids. -/
theorem nodup_ids_applyOp (op : Op) (s : ManagerState)
    (h : (windowIds s).Nodup) : (windowIds (applyOp op s)).Nodup := by
  cases op with
  | openWindow spec =>
    rcases hfind : s.windows.find? (fun w => w.id == spec.id) with _ | ex
    · have habs : spec.id ∉ windowIds s := by
        rw [List.find?_eq_none] at hfind
        simp only [windowIds, List.mem_map, not_exists, not_and]
        intro w hw hEq
        exact hfind w hw (by simpa using hEq)
      rw [show applyOp (.openWindow spec) s = openWindow spec s from rfl,
        windowIds_openWindow_new spec s hfind, List.nodup_append]
      refine ⟨h, List.nodup_singleton _, ?_⟩
      intro a ha hb
      simp only [List.mem_singleton] at hb
      exact habs (hb ▸ ha)
    · rw [show applyOp (.openWindow spec) s = openWindow spec s from rfl,
        windowIds_openWindow_found spec s ex hfind]
      exact h
  | closeWindow id =>
    have heq : windowIds (applyOp (.closeWindow id) s) =
        (s.windows.filter (fun w => w.id != id)).map (fun w => w.id) := rfl
    rw [heq]
    exact ((s.windows.filter_sublist).map _).nodup h
  | minimizeWindow id => rw [show applyOp (.minimizeWindow id) s = minimizeWindow id s from rfl,
      windowIds_minimizeWindow]; exact h
  | maximizeWindow id => rw [show applyOp (.maximizeWindow id) s = maximizeWindow id s from rfl,
      windowIds_maximizeWindow]; exact h
  | restoreWindow id => rw [show applyOp (.restoreWindow id) s = restoreWindow id s from rfl,
      windowIds_restoreWindow]; exact h
  | focusWindow id => rw [show applyOp (.focusWindow id) s = focusWindow id s from rfl,
      windowIds_focusWindow]; exact h
  | updateWindowPosition id x y =>
    rw [show applyOp (.updateWindowPosition id x y) s = updateWindowPosition id x y s from rfl,
      windowIds_updateWindowPosition]; exact h
  | updateWindowSize id wd ht =>
    rw [show applyOp (.updateWindowSize id wd ht) s = updateWindowSize id wd ht s from rfl,
      windowIds_updateWindowSize]; exact h

/-- After a focus-shaped map (the matching id focused, everything else
unfocused), the focused windows are exactly those matching the id. -/
theorem countP_focus_shaped (l : List WindowState) (a : String)
    (f : WindowState → WindowState)
    (hf : ∀ w, (f w).isFocused = (w.id == a)) :
    (l.map f).countP (fun w => w.isFocused) = l.countP (fun w => w.id == a) := by
  rw [List.countP_map]
  exact List.countP_congr (fun w _ => by simp [Function.comp, hf w])

/-- Every operation keeps the number of focused windows at most one,
given distinct ids. -/
theorem focusedCount_applyOp_le_one (op : Op) (s : ManagerState)
    (hn : (windowIds s).Nodup) (h1 : focusedCount s ≤ 1) :
    focusedCount (applyOp op s) ≤ 1 := by
  cases op with
  | openWindow spec =>
    rcases hfind : s.windows.find? (fun w => w.id == spec.id) with _ | ex
    · simp only [focusedCount, applyOp, openWindow, hfind]
      rw [List.countP_append]
      have hzero : (s.windows.map
          (fun w => { w with isFocused := false })).countP (fun w => w.isFocused) = 0 := by
        rw [List.countP_map, List.countP_eq_zero]
        intro w _
        simp [Function.comp]
      simp [hzero]
    · by_cases hmin : ex.isMinimized = true <;>
      · simp only [focusedCount, applyOp, openWindow, hfind, hmin, if_true, if_false,
          Bool.false_eq_true]
        rw [countP_focus_shaped s.windows spec.id _
          (fun w => by by_cases hw : (w.id == spec.id) = true <;> simp [hw])]
        exact countP_id_le_one hn
  | closeWindow id =>
    exact le_trans (((s.windows.filter_sublist).countP_le _)) h1
  | minimizeWindow id =>
    simp only [focusedCount, applyOp, minimizeWindow]
    rw [List.countP_map]
    refine le_trans (List.countP_mono_left (fun w _ hw => ?_)) h1
    by_cases hid : (w.id == id) = true
    · simp [Function.comp, hid] at hw
    · simpa [Function.comp, hid] using hw
  | maximizeWindow id =>
    simp only [focusedCount, applyOp, maximizeWindow]
    rw [List.countP_map]
    refine le_trans (List.countP_mono_left (fun w _ hw => ?_)) h1
    by_cases hid : (w.id == id) = true <;> simpa [Function.comp, hid] using hw
  | restoreWindow id =>
    simp only [focusedCount, applyOp, restoreWindow]
    rw [countP_focus_shaped s.windows id _
      (fun w => by by_cases hw : (w.id == id) = true <;> simp [hw])]
    exact countP_id_le_one hn
  | focusWindow id =>
    simp only [focusedCount, applyOp, focusWindow]
    rw [countP_focus_shaped s.windows id _
      (fun w => by by_cases hw : (w.id == id) = true <;> simp [hw])]
    exact countP_id_le_one hn
  | updateWindowPosition id x y =>
    simp only [focusedCount, applyOp, updateWindowPosition]
    rw [List.countP_map]
    refine le_trans (List.countP_mono_left (fun w _ hw => ?_)) h1
    by_cases hid : (w.id == id) = true <;> simpa [Function.comp, hid] using hw
  | updateWindowSize id wd ht =>
    simp only [focusedCount, applyOp, updateWindowSize]
    rw [List.countP_map]
    refine le_trans (List.countP_mono_left (fun w _ hw => ?_)) h1
    by_cases hid : (w.id == id) = true <;> simpa [Function.comp, hid] using hw

/-- Distinct ids together with at-most-one-focused are preserved by any
sequence of operations. -/
theorem inv_applyOps (ops : List Op) (s : ManagerState)
    (hn : (windowIds s).Nodup) (h1 : focusedCount s ≤ 1) :
    (windowIds (applyOps ops s)).Nodup ∧ focusedCount (applyOps ops s) ≤ 1 := by
  induction ops generalizing s with
  | nil => exact ⟨hn, h1⟩
  | cons op rest ih =>
    exact ih (applyOp op s) (nodup_ids_applyOp op s hn)
      (focusedCount_applyOp_le_one op s hn h1)

/-- No single operation ever lowers the `topZIndex` counter. -/
theorem topZIndex_le_applyOp (op : Op) (s : ManagerState) :
    s.topZIndex ≤ (applyOp op s).topZIndex := by
  cases op with
  | openWindow spec =>
    rcases hfind : s.windows.find? (fun w => w.id == spec.id) with _ | ex
    · simp only [applyOp, openWindow, hfind]
      omega
    · by_cases hmin : ex.isMinimized = true <;>
      · simp only [applyOp, openWindow, hfind, hmin, if_true, if_false, Bool.false_eq_true]
        omega
  | closeWindow id => exact le_of_eq rfl
  | minimizeWindow id => exact le_of_eq rfl
  | maximizeWindow id => exact le_of_eq rfl
  | restoreWindow id =>
    show s.topZIndex ≤ s.topZIndex + 1
    omega
  | focusWindow id =>
    show s.topZIndex ≤ s.topZIndex + 1
    omega
  | updateWindowPosition id x y => exact le_of_eq rfl
  | updateWindowSize id wd ht => exact le_of_eq rfl

/-- No sequence of operations ever lowers the `topZIndex` counter. -/
theorem topZIndex_le_applyOps (ops : List Op) (s : ManagerState) :
    s.topZIndex ≤ (applyOps ops s).topZIndex := by
  induction ops generalizing s with
  | nil => exact le_refl _
  | cons op rest ih => exact le_trans (topZIndex_le_applyOp op s) (ih (applyOp op s))

/-- A bring-to-front operation bumps `topZIndex` to exactly the z index
it assigns. -/
theorem bringsToFront_topZIndex (op : Op) (s : ManagerState)
    (h : bringsToFront op = true) : (applyOp op s).topZIndex = assignedZ s := by
  cases op with
  | openWindow spec =>
    rcases hfind : s.windows.find? (fun w => w.id == spec.id) with _ | ex
    · simp [applyOp, openWindow, hfind, assignedZ]
    · by_cases hmin : ex.isMinimized = true <;>
        simp [applyOp, openWindow, hfind, hmin, assignedZ]
  | closeWindow id => simp [bringsToFront] at h
  | minimizeWindow id => simp [bringsToFront] at h
  | maximizeWindow id => simp [bringsToFront] at h
  | restoreWindow id => rfl
  | focusWindow id => rfl
  | updateWindowPosition id x y => simp [bringsToFront] at h
  | updateWindowSize id wd ht => simp [bringsToFront] at h

/-- Mapping a per-window update that only touches matching ids is the
identity when no window matches. -/
theorem map_if_absent (l : List WindowState) (id : String)
    (g : WindowState → WindowState) (h : ∀ w ∈ l, w.id ≠ id) :
    l.map (fun w => if w.id == id then g w else w) = l := by
  have h2 : l.map (fun w => if w.id == id then g w else w) = l.map (fun w => w) :=
    List.map_congr_left (fun w hw => by
      have hb : (w.id == id) = false := by simpa using h w hw
      simp [hb])
  simpa using h2

/-- C1: for every finite sequence of Window Manager operations applied to
the initial empty state, at most one window in the resulting collection
has `isFocused = true`. -/
theorem atMostOneFocused (ops : List Op) :
    focusedCount (applyOps ops initialState) ≤ 1 :=
  (inv_applyOps ops initialState (by simp [windowIds, initialState])
    (by simp [focusedCount, initialState])).2

/-- C4: across any run, any bring-to-front operation assigns a strictly
greater z index than any earlier bring-to-front operation (in particular
than the immediately preceding one), and `topZIndex` never decreases
over any sequence of operations. -/
theorem zOrder_monotone (s : ManagerState) (op1 op2 : Op) (mid ops : List Op)
    (h1 : bringsToFront op1 = true) (_h2 : bringsToFront op2 = true) :
    assignedZ s < assignedZ (applyOps mid (applyOp op1 s)) ∧
    s.topZIndex ≤ (applyOps ops s).topZIndex := by
  refine ⟨?_, topZIndex_le_applyOps ops s⟩
  have hb := bringsToFront_topZIndex op1 s h1
  have hm := topZIndex_le_applyOps mid (applyOp op1 s)
  simp only [assignedZ] at hb ⊢
  omega

/-- Witness for C4: two immediately consecutive focus calls on a concrete
state assign strictly increasing z indices. -/
theorem zOrder_monotone_witness :
    bringsToFront (.focusWindow "a") = true ∧
    assignedZ demoState <
      assignedZ (applyOps [] (applyOp (.focusWindow "a") demoState)) ∧
    demoState.topZIndex ≤ (applyOps [] demoState).topZIndex := by
  refine ⟨by decide, ?_, ?_⟩
  · exact (zOrder_monotone demoState (.focusWindow "a") (.focusWindow "a") [] []
      (by decide) (by decide)).1
  · exact (zOrder_monotone demoState (.focusWindow "a") (.focusWindow "a") [] []
      (by decide) (by decide)).2

/-- C10: on an id absent from the collection, `focusWindow` and
`restoreWindow` still increment `topZIndex` by exactly one while no
window's `zIndex` changes, so the allocated value is skipped. -/
theorem absentIdConsumesZ (s : ManagerState) (id : String)
    (h : ∀ w ∈ s.windows, w.id ≠ id) :
    (focusWindow id s).topZIndex = s.topZIndex + 1 ∧
    (restoreWindow id s).topZIndex = s.topZIndex + 1 ∧
    (focusWindow id s).windows.map (fun w => w.zIndex) =
      s.windows.map (fun w => w.zIndex) ∧
    (restoreWindow id s).windows.map (fun w => w.zIndex) =
      s.windows.map (fun w => w.zIndex) := by
  refine ⟨rfl, rfl, ?_, ?_⟩
  · simp only [focusWindow, List.map_map]
    refine List.map_congr_left (fun w hw => ?_)
    have hb : (w.id == id) = false := by simpa using h w hw
    simp [Function.comp, hb]
  · simp only [restoreWindow, List.map_map]
    refine List.map_congr_left (fun w hw => ?_)
    have hb : (w.id == id) = false := by simpa using h w hw
    simp [Function.comp, hb]

/-- Witness for C10: a concrete state and an absent id. -/
theorem absentIdConsumesZ_witness :
    (∀ w ∈ demoState.windows, w.id ≠ "zzz") ∧
    (focusWindow "zzz" demoState).topZIndex = demoState.topZIndex + 1 ∧
    (restoreWindow "zzz" demoState).topZIndex = demoState.topZIndex + 1 ∧
    (focusWindow "zzz" demoState).windows.map (fun w => w.zIndex) =
      demoState.windows.map (fun w => w.zIndex) ∧
    (restoreWindow "zzz" demoState).windows.map (fun w => w.zIndex) =
      demoState.windows.map (fun w => w.zIndex) :=
  ⟨by decide, (absentIdConsumesZ demoState "zzz" (by decide)).1,
    (absentIdConsumesZ demoState "zzz" (by decide)).2.1,
    (absentIdConsumesZ demoState "zzz" (by decide)).2.2.1,
    (absentIdConsumesZ demoState "zzz" (by decide)).2.2.2⟩

/-- Counterexample to C2: on a state with one focused window `"a"`,
`focusWindow "b"` with the absent id `"b"` changes the collection — the
window `"a"` loses its focus. -/
theorem focusAbsentChangesCollection :
    (focusWindow "b" demoState).windows ≠ demoState.windows := by decide

/-- C2 (amended): with an id absent from the collection, `closeWindow`,
`minimizeWindow`, `maximizeWindow`, `updateWindowPosition` and
`updateWindowSize` leave the collection identical, while `focusWindow`
and `restoreWindow` clear `isFocused` on every window and leave all other
fields unchanged (so the collection is identical only when no window was
focused). -/
theorem absentIdBehaviour (s : ManagerState) (id : String) (x y wd ht : Int)
    (h : ∀ w ∈ s.windows, w.id ≠ id) :
    (closeWindow id s).windows = s.windows ∧
    (minimizeWindow id s).windows = s.windows ∧
    (maximizeWindow id s).windows = s.windows ∧
    (updateWindowPosition id x y s).windows = s.windows ∧
    (updateWindowSize id wd ht s).windows = s.windows ∧
    (focusWindow id s).windows =
      s.windows.map (fun w => { w with isFocused := false }) ∧
    (restoreWindow id s).windows =
      s.windows.map (fun w => { w with isFocused := false }) := by
  refine ⟨?_, ?_, ?_, ?_, ?_, ?_, ?_⟩
  · exact List.filter_eq_self.mpr (fun w hw => by simpa using h w hw)
  · exact map_if_absent s.windows id _ h
  · exact map_if_absent s.windows id _ h
  · exact map_if_absent s.windows id _ h
  · exact map_if_absent s.windows id _ h
  · refine List.map_congr_left (fun w hw => ?_)
    have hb : (w.id == id) = false := by simpa using h w hw
    simp [hb]
  · refine List.map_congr_left (fun w hw => ?_)
    have hb : (w.id == id) = false := by simpa using h w hw
    simp [hb]

/-- Witness for C2 (amended): a concrete state and an absent id. -/
theorem absentIdBehaviour_witness :
    (∀ w ∈ demoState.windows, w.id ≠ "zzz") ∧
    (closeWindow "zzz" demoState).windows = demoState.windows ∧
    (focusWindow "zzz" demoState).windows =
      demoState.windows.map (fun w => { w with isFocused := false }) :=
  ⟨by decide, (absentIdBehaviour demoState "zzz" 0 0 0 0 (by decide)).1,
    (absentIdBehaviour demoState "zzz" 0 0 0 0 (by decide)).2.2.2.2.2.1⟩

/-- C6: `minimizeWindow` sets `isMinimized := true, isFocused := false`
on the matching window, preserves its every other field (in particular
`isMaximized` and `zIndex`), leaves non-matching windows untouched, and
is a no-op on the collection when the id is absent. -/
theorem minimizeWindowCorrect (s : ManagerState) (id : String) :
    (minimizeWindow id s).windows.length = s.windows.length ∧
    List.Forall₂ (fun w w' =>
        w'.id = w.id ∧ w'.title = w.title ∧ w'.icon = w.icon ∧
        w'.content = w.content ∧ w'.x = w.x ∧ w'.y = w.y ∧
        w'.width = w.width ∧ w'.height = w.height ∧
        w'.minWidth = w.minWidth ∧ w'.minHeight = w.minHeight ∧
        w'.isMaximized = w.isMaximized ∧ w'.zIndex = w.zIndex ∧
        (w.id = id → w'.isMinimized = true ∧ w'.isFocused = false) ∧
        (w.id ≠ id → w' = w))
      s.windows (minimizeWindow id s).windows ∧
    ((∀ w ∈ s.windows, w.id ≠ id) → (minimizeWindow id s).windows = s.windows) := by
  refine ⟨by simp [minimizeWindow], ?_, fun h => map_if_absent s.windows id _ h⟩
  show List.Forall₂ _ s.windows (s.windows.map _)
  rw [List.forall₂_map_right_iff, List.forall₂_same]
  intro w _
  by_cases hid : w.id = id
  · have hb : (w.id == id) = true := by simpa using hid
    simp [hb, hid]
  · have hb : (w.id == id) = false := by simpa using hid
    simp [hb, hid]

/-- Witness for C6: minimizing an absent id on a concrete state leaves
the collection unchanged. -/
theorem minimizeWindowCorrect_witness :
    (∀ w ∈ demoState.windows, w.id ≠ "zzz") ∧
    (minimizeWindow "zzz" demoState).windows = demoState.windows :=
  ⟨by decide, (minimizeWindowCorrect demoState "zzz").2.2 (by decide)⟩

/-- C7: `maximizeWindow` negates `isMaximized` on the matching window,
preserves its every other field (in particular `zIndex`, `isFocused` and
`isMinimized`), leaves non-matching windows untouched, and is a no-op on
the collection when the id is absent. -/
theorem maximizeWindowCorrect (s : ManagerState) (id : String) :
    (maximizeWindow id s).windows.length = s.windows.length ∧
    List.Forall₂ (fun w w' =>
        w'.id = w.id ∧ w'.title = w.title ∧ w'.icon = w.icon ∧
        w'.content = w.content ∧ w'.x = w.x ∧ w'.y = w.y ∧
        w'.width = w.width ∧ w'.height = w.height ∧
        w'.minWidth = w.minWidth ∧ w'.minHeight = w.minHeight ∧
        w'.isMinimized = w.isMinimized ∧ w'.isFocused = w.isFocused ∧
        w'.zIndex = w.zIndex ∧
        (w.id = id → w'.isMaximized = !w.isMaximized) ∧
        (w.id ≠ id → w' = w))
      s.windows (maximizeWindow id s).windows ∧
    ((∀ w ∈ s.windows, w.id ≠ id) → (maximizeWindow id s).windows = s.windows) := by
  refine ⟨by simp [maximizeWindow], ?_, fun h => map_if_absent s.windows id _ h⟩
  show List.Forall₂ _ s.windows (s.windows.map _)
  rw [List.forall₂_map_right_iff, List.forall₂_same]
  intro w _
  by_cases hid : w.id = id
  · have hb : (w.id == id) = true := by simpa using hid
    simp [hb, hid]
  · have hb : (w.id == id) = false := by simpa using hid
    simp [hb, hid]

/-- Witness for C7: maximizing an absent id on a concrete state leaves
the collection unchanged. -/
theorem maximizeWindowCorrect_witness :
    (∀ w ∈ demoState.windows, w.id ≠ "zzz") ∧
    (maximizeWindow "zzz" demoState).windows = demoState.windows :=
  ⟨by decide, (maximizeWindowCorrect demoState "zzz").2.2 (by decide)⟩

/-- Mapping an id-preserving function does not change how many windows
match a given id. -/
theorem countP_id_map (l : List WindowState) (a : String)
    (f : WindowState → WindowState) (hf : ∀ w, (f w).id = w.id) :
    (l.map f).countP (fun w => w.id == a) = l.countP (fun w => w.id == a) := by
  rw [List.countP_map]
  exact List.countP_congr (fun w _ => by simp [Function.comp, hf w])

/-- With distinct ids, `find?` on an id returns exactly the member window
carrying that id. -/
theorem find?_eq_of_mem (s : ManagerState) (a : String) (ex : WindowState)
    (hn : (windowIds s).Nodup) (hex : ex ∈ s.windows) (hid : ex.id = a) :
    s.windows.find? (fun w => w.id == a) = some ex := by
  rcases hfind : s.windows.find? (fun w => w.id == a) with _ | e
  · rw [List.find?_eq_none] at hfind
    exact absurd (show (ex.id == a) = true by simpa using hid) (hfind ex hex)
  · have he' := List.find?_some hfind
    have he : (e.id == a) = true := by simpa using he'
    have hemem : e ∈ s.windows := List.mem_of_find?_eq_some hfind
    have heq : e = ex := by
      refine List.inj_on_of_nodup_map hn hemem hex ?_
      show e.id = ex.id
      rw [hid]
      simpa using he
    rw [hfind, heq]

/-- C5: opening a spec whose id matches an existing minimized window (in
a state with distinct ids) leaves exactly one window with that id, now
unminimized and focused, creates no window, and — for any spec and state
— `openWindow` never introduces a duplicate id. -/
theorem openWindowRestoresMinimized (spec : OpenSpec) (s : ManagerState)
    (hn : (windowIds s).Nodup) (ex : WindowState) (hex : ex ∈ s.windows)
    (hid : ex.id = spec.id) (hmin : ex.isMinimized = true) :
    (openWindow spec s).windows.countP (fun w => w.id == spec.id) = 1 ∧
    (∀ w ∈ (openWindow spec s).windows, w.id = spec.id →
      w.isMinimized = false ∧ w.isFocused = true) ∧
    (openWindow spec s).windows.length = s.windows.length ∧
    (∀ (spec' : OpenSpec) (s' : ManagerState), (windowIds s').Nodup →
      (windowIds (openWindow spec' s')).Nodup) := by
  have hfind := find?_eq_of_mem s spec.id ex hn hex hid
  refine ⟨?_, ?_, ?_, fun spec' s' hn' => nodup_ids_applyOp (.openWindow spec') s' hn'⟩
  · simp only [openWindow, hfind, hmin, if_true]
    rw [countP_id_map s.windows spec.id _
      (fun w => by by_cases hw : (w.id == spec.id) = true <;> simp [hw])]
    have hle : s.windows.countP (fun w => w.id == spec.id) ≤ 1 := countP_id_le_one hn
    have hpos : 0 < s.windows.countP (fun w => w.id == spec.id) :=
      List.countP_pos_iff.mpr ⟨ex, hex, by simpa using hid⟩
    omega
  · intro w hw hwid
    simp only [openWindow, hfind, hmin, if_true, List.mem_map] at hw
    obtain ⟨v, hvmem, rfl⟩ := hw
    by_cases hv : (v.id == spec.id) = true
    · simp [hv]
    · have hv' : (v.id == spec.id) = false := by simpa using hv
      simp only [hv', Bool.false_eq_true, if_false] at hwid
      exact absurd (show (v.id == spec.id) = true by simpa using hwid) hv
  · simp [openWindow, hfind, hmin]

/-- Witness for C5: reopening the minimized window of a concrete state. -/
theorem openWindowRestoresMinimized_witness :
    (openWindow (demoSpec "a") demoMinState).windows.countP
        (fun w => w.id == (demoSpec "a").id) = 1 ∧
    (∀ w ∈ (openWindow (demoSpec "a") demoMinState).windows,
      w.id = (demoSpec "a").id → w.isMinimized = false ∧ w.isFocused = true) ∧
    (openWindow (demoSpec "a") demoMinState).windows.length =
      demoMinState.windows.length :=
  let h := openWindowRestoresMinimized (demoSpec "a") demoMinState (by decide)
    { demoWindow with isMinimized := true, isFocused := false }
    (by decide) (by decide) (by decide)
  ⟨h.1, h.2.1, h.2.2.1⟩

/-- Under the caller discipline, one operation preserves the
minimized-implies-unfocused property (given distinct ids). -/
theorem mnf_applyOp (op : Op) (s : ManagerState)
    (hn : (windowIds s).Nodup)
    (hm : ∀ w ∈ s.windows, w.isMinimized = true → w.isFocused = false)
    (ha : opAllowed op s = true) :
    ∀ w ∈ (applyOp op s).windows, w.isMinimized = true → w.isFocused = false := by
  intro w hw hwmin
  cases op with
  | openWindow spec =>
    have hspec : spec.isMinimized = false := by
      simpa [opAllowed] using ha
    rcases hfind : s.windows.find? (fun v => v.id == spec.id) with _ | ex
    · simp only [applyOp, openWindow, hfind, List.mem_append, List.mem_map,
        List.mem_singleton] at hw
      rcases hw with ⟨v, hv, rfl⟩ | rfl
      · rfl
      · exact absurd hwmin (by simp [hspec])
    · by_cases hmin : ex.isMinimized = true
      · simp only [applyOp, openWindow, hfind, hmin, if_true, List.mem_map] at hw
        obtain ⟨v, hv, rfl⟩ := hw
        by_cases hvid : (v.id == spec.id) = true
        · simp [hvid] at hwmin
        · simp [hvid]
      · have hmin' : ex.isMinimized = false := by simpa using hmin
        simp only [applyOp, openWindow, hfind, hmin', Bool.false_eq_true, if_false,
          List.mem_map] at hw
        obtain ⟨v, hv, rfl⟩ := hw
        by_cases hvid : (v.id == spec.id) = true
        · have hexmem : ex ∈ s.windows := List.mem_of_find?_eq_some hfind
          have he' := List.find?_some hfind
          have he : (ex.id == spec.id) = true := by simpa using he'
          have hveq : v = ex := by
            refine List.inj_on_of_nodup_map hn hv hexmem ?_
            show v.id = ex.id
            have h1 : v.id = spec.id := by simpa using hvid
            have h2 : ex.id = spec.id := by simpa using he
            rw [h1, h2]
          have hvmin : v.isMinimized = true := by simpa [hvid] using hwmin
          rw [hveq] at hvmin
          exact absurd hvmin hmin
        · simp [hvid]
  | closeWindow id =>
    exact hm w (List.mem_of_mem_filter hw) hwmin
  | minimizeWindow id =>
    simp only [applyOp, minimizeWindow, List.mem_map] at hw
    obtain ⟨v, hv, rfl⟩ := hw
    by_cases hvid : (v.id == id) = true
    · simp [hvid]
    · have hvmin : v.isMinimized = true := by simpa [hvid] using hwmin
      simpa [hvid] using hm v hv hvmin
  | maximizeWindow id =>
    simp only [applyOp, maximizeWindow, List.mem_map] at hw
    obtain ⟨v, hv, rfl⟩ := hw
    by_cases hvid : (v.id == id) = true
    · have hvmin : v.isMinimized = true := by simpa [hvid] using hwmin
      simpa [hvid] using hm v hv hvmin
    · have hvmin : v.isMinimized = true := by simpa [hvid] using hwmin
      simpa [hvid] using hm v hv hvmin
  | restoreWindow id =>
    simp only [applyOp, restoreWindow, List.mem_map] at hw
    obtain ⟨v, hv, rfl⟩ := hw
    by_cases hvid : (v.id == id) = true
    · simp [hvid] at hwmin
    · simp [hvid]
  | focusWindow id =>
    have hall : ∀ v ∈ s.windows, (v.id != id || !v.isMinimized) = true := by
      simpa [opAllowed, List.all_eq_true] using ha
    simp only [applyOp, focusWindow, List.mem_map] at hw
    obtain ⟨v, hv, rfl⟩ := hw
    by_cases hvid : (v.id == id) = true
    · have hv2 := hall v hv
      have hvmin : v.isMinimized = true := by simpa [hvid] using hwmin
      simp [hvmin] at hv2
      exact absurd (show v.id = id by simpa using hvid) hv2
    · simp [hvid]
  | updateWindowPosition id x y =>
    simp only [applyOp, updateWindowPosition, List.mem_map] at hw
    obtain ⟨v, hv, rfl⟩ := hw
    by_cases hvid : (v.id == id) = true
    · have hvmin : v.isMinimized = true := by simpa [hvid] using hwmin
      simpa [hvid] using hm v hv hvmin
    · have hvmin : v.isMinimized = true := by simpa [hvid] using hwmin
      simpa [hvid] using hm v hv hvmin
  | updateWindowSize id wd ht =>
    simp only [applyOp, updateWindowSize, List.mem_map] at hw
    obtain ⟨v, hv, rfl⟩ := hw
    by_cases hvid : (v.id == id) = true
    · have hvmin : v.isMinimized = true := by simpa [hvid] using hwmin
      simpa [hvid] using hm v hv hvmin
    · have hvmin : v.isMinimized = true := by simpa [hvid] using hwmin
      simpa [hvid] using hm v hv hvmin

/-- Under the caller discipline, a whole run preserves distinct ids and
minimized-implies-unfocused. -/
theorem mnf_applyOps (ops : List Op) (s : ManagerState)
    (hn : (windowIds s).Nodup)
    (hm : ∀ w ∈ s.windows, w.isMinimized = true → w.isFocused = false)
    (hs : safeSeq s ops = true) :
    (windowIds (applyOps ops s)).Nodup ∧
    ∀ w ∈ (applyOps ops s).windows, w.isMinimized = true → w.isFocused = false := by
  induction ops generalizing s with
  | nil => exact ⟨hn, hm⟩
  | cons op rest ih =>
    simp only [safeSeq, Bool.and_eq_true] at hs
    exact ih (applyOp op s) (nodup_ids_applyOp op s hn)
      (mnf_applyOp op s hn hm hs.1) hs.2

/-- Counterexample to C3: the run open `"a"`, minimize `"a"`, focus `"a"`
leaves window `"a"` both minimized and focused, so the invariant fails
for unrestricted operation sequences. -/
theorem minimizedFocusedCounterexample :
    ¬ (∀ w ∈ (applyOps c3ops initialState).windows,
        w.isMinimized = true → w.isFocused = false) := by decide

/-- C3 (amended): every window with `isMinimized = true` has
`isFocused = false` after any sequence of operations from the initial
state in which `focusWindow` is never applied to a currently minimized
window and `openWindow` is never given a spec with `isMinimized = true`. -/
theorem minimizedNeverFocused (ops : List Op)
    (h : safeSeq initialState ops = true) :
    ∀ w ∈ (applyOps ops initialState).windows,
      w.isMinimized = true → w.isFocused = false :=
  (mnf_applyOps ops initialState (by simp [windowIds, initialState])
    (by simp [initialState]) h).2

/-- Witness for C3 (amended): the disciplined run open, minimize,
restore. -/
theorem minimizedNeverFocused_witness :
    safeSeq initialState c3safeOps = true ∧
    ∀ w ∈ (applyOps c3safeOps initialState).windows,
      w.isMinimized = true → w.isFocused = false :=
  ⟨by decide, minimizedNeverFocused c3safeOps (by decide)⟩

/-- C8: a body whose `messages` field is missing or not an array, or
whose array holds no entry with role `"user"`, makes both endpoints
return HTTP 400 with a JSON error body; the response never carries a
stream and does not depend on the agent runtime's messages. -/
theorem invalidRequestYields400 (body : RequestBody) (m1 m2 : List SdkMessage)
    (h : body.messages = .missing ∨ body.messages = .notArray ∨
      ∃ msgs, body.messages = .array msgs ∧ ∀ m ∈ msgs, m.role ≠ "user") :
    (∃ e, chatPOST body m1 = .jsonError 400 e ∧
      customerResearchPOST body m1 = .jsonError 400 e) ∧
    chatPOST body m1 = chatPOST body m2 ∧
    customerResearchPOST body m1 = customerResearchPOST body m2 := by
  have hval : ∃ e, validateMessages body = .badRequest e := by
    rcases h with h | h | ⟨msgs, hmsgs, hu⟩
    · exact ⟨"Messages array is required", by simp [validateMessages, h]⟩
    · exact ⟨"Messages array is required", by simp [validateMessages, h]⟩
    · have hfil : msgs.filter (fun m => m.role == "user") = [] :=
        List.filter_eq_nil_iff.mpr (fun m hm => by simpa using hu m hm)
      exact ⟨"No user message found", by simp [validateMessages, hmsgs, hfil]⟩
  obtain ⟨e, he⟩ := hval
  exact ⟨⟨e, by simp [chatPOST, he], by simp [customerResearchPOST, he]⟩,
    by simp [chatPOST, he], by simp [customerResearchPOST, he]⟩

/-- Witness for C8: the empty body against both endpoints. -/
theorem invalidRequestYields400_witness :
    (∃ e, chatPOST ⟨.missing⟩ [] = .jsonError 400 e ∧
      customerResearchPOST ⟨.missing⟩ [] = .jsonError 400 e) ∧
    chatPOST ⟨.missing⟩ [] = chatPOST ⟨.missing⟩ demoMsgs ∧
    customerResearchPOST ⟨.missing⟩ [] = customerResearchPOST ⟨.missing⟩ demoMsgs :=
  invalidRequestYields400 ⟨.missing⟩ [] demoMsgs (Or.inl rfl)

/-- The frames one SDK message contributes are renderings of §6 payload
shapes. -/
theorem emitFrames_shapes (m : SdkMessage) :
    ∃ ps : List SsePayload,
      emitFrames m = ps.map (fun p => sseFrame (renderPayload p)) := by
  cases m with
  | streamEvent ev =>
    cases ev with
    | contentBlockDelta d =>
      cases d with
      | textDelta t => exact ⟨[.textDelta t], rfl⟩
      | otherDelta => exact ⟨[], rfl⟩
    | otherEvent => exact ⟨[], rfl⟩
  | assistant c =>
    cases c with
    | none => exact ⟨[], rfl⟩
    | some blocks =>
      induction blocks with
      | nil => exact ⟨[], rfl⟩
      | cons b rest ih =>
        obtain ⟨ps, hps⟩ := ih
        simp only [emitFrames] at hps
        cases b with
        | toolUse name input =>
          refine ⟨.toolStart name :: ps, ?_⟩
          simp only [emitFrames, List.filterMap_cons, List.map_cons]
          rw [hps]
          rfl
        | otherBlock =>
          refine ⟨ps, ?_⟩
          simp only [emitFrames, List.filterMap_cons]
          rw [hps]
  | toolProgress tool elapsed => exact ⟨[.toolProgress tool elapsed], rfl⟩
  | result subtype =>
    by_cases hsub : (subtype == "success") = true
    · exact ⟨[.done], by simp [emitFrames, hsub]; rfl⟩
    · have hsub' : (subtype == "success") = false := by simpa using hsub
      exact ⟨[.error "Query did not complete successfully"],
        by simp [emitFrames, hsub']; rfl⟩
  | otherMessage => exact ⟨[], rfl⟩

/-- The whole success-path SSE body is a rendering of §6 payload shapes
followed by the terminator frame. -/
theorem runStream_shapes (msgs : List SdkMessage) :
    ∃ payloads : List SsePayload,
      runStream msgs =
        payloads.map (fun p => sseFrame (renderPayload p)) ++ [doneFrame] := by
  induction msgs with
  | nil => exact ⟨[], rfl⟩
  | cons m rest ih =>
    obtain ⟨ps, hps⟩ := ih
    obtain ⟨qs, hqs⟩ := emitFrames_shapes m
    refine ⟨qs ++ ps, ?_⟩
    have hrest : (rest.map emitFrames).flatten ++ [doneFrame] = runStream rest := rfl
    simp only [runStream, List.map_cons, List.flatten_cons, List.append_assoc]
    rw [hrest, hps, hqs]
    simp [List.map_append, List.append_assoc]

/-- C9: on the success path both endpoints answer with the event stream
whose every frame before the terminator is `data: <json>\n\n` for one of
the five §6 payload shapes, and whose final frame is the literal
`data: [DONE]\n\n` after which the stream closes. -/
theorem streamFramesWellformed (body : RequestBody) (msgs : List SdkMessage)
    (last : MessageInput) (hv : validateMessages body = .ok last) :
    chatPOST body msgs = .eventStream (runStream msgs) ∧
    customerResearchPOST body msgs = .eventStream (runStream msgs) ∧
    ∃ payloads : List SsePayload,
      runStream msgs =
        payloads.map (fun p => sseFrame (renderPayload p)) ++ [doneFrame] :=
  ⟨by simp [chatPOST, hv], by simp [customerResearchPOST, hv], runStream_shapes msgs⟩

/-- Witness for C9: a concrete valid body and a concrete SDK run that
produces every frame kind. -/
theorem streamFramesWellformed_witness :
    validateMessages demoBody = .ok { role := "user", content := "hi" } ∧
    chatPOST demoBody demoMsgs = .eventStream (runStream demoMsgs) ∧
    ∃ payloads : List SsePayload,
      runStream demoMsgs =
        payloads.map (fun p => sseFrame (renderPayload p)) ++ [doneFrame] :=
  let h := streamFramesWellformed demoBody demoMsgs
    { role := "user", content := "hi" } (by decide)
  ⟨by decide, h.1, h.2.2⟩

end SentryOS
